import Mathlib

/-!
# Verification of the bookstore order/stat workflow

A shallow embedding of the Express/Prisma bookstore service
(controllers `transaction.controller.ts`, `book.controller.ts`).
JavaScript numbers are modelled as exact rationals (`Rat`); machine
floating point rounding is outside the model.  Because the kernel cannot
reduce `Rat`'s built-in arithmetic (it is irreducible), the embedding
uses the wrappers `qAdd`, `qSub`, `qMul`, `qDivNat` below, defined by
the textbook numerator/denominator formulas through `mkRat`; each is
proved equal to the corresponding `Rat` operation, and each reduces in
the kernel, so concrete program runs can be checked by `decide`.

The repository holds two variants of the transaction controller.  The
first variant (schema `books` / `orders` / `order_items`, soft deletes,
no price snapshot) is the one the specification adopts (spec §9) and is
embedded here under the source names.  The second variant's request
validation (the one that additionally rejects non-integer quantities
with HTTP 422) and its transaction body are embedded with a `V2` suffix.

The database is a value (`DB`); every controller action is a pure
function from the request and the current `DB` to a response and the
next `DB`.  Prisma's interactive transaction with rollback is modelled
by the `Except` monad: an error leaves the caller's `DB` untouched.
The store's ORDER BY is an external collaborator and is modelled as an
opaque reordering function (`sorter` parameters).
-/

/-- `a + b` on rationals by the `mkRat` formula (kernel-reducible). -/
def qAdd (a b : Rat) : Rat := mkRat (a.num * b.den + b.num * a.den) (a.den * b.den)

/-- `a - b` on rationals by the `mkRat` formula (kernel-reducible). -/
def qSub (a b : Rat) : Rat := mkRat (a.num * b.den - b.num * a.den) (a.den * b.den)

/-- `a * b` on rationals by the `mkRat` formula (kernel-reducible). -/
def qMul (a b : Rat) : Rat := mkRat (a.num * b.num) (a.den * b.den)

/-- `a / n` for a natural divisor, by the `mkRat` formula (kernel-reducible). -/
def qDivNat (a : Rat) (n : Nat) : Rat := mkRat a.num (a.den * n)

theorem qAdd_eq (a b : Rat) : qAdd a b = a + b := (Rat.add_def' a b).symm

theorem qSub_eq (a b : Rat) : qSub a b = a - b := (Rat.sub_def' a b).symm

theorem qMul_eq (a b : Rat) : qMul a b = a * b := by
  rw [qMul, Rat.mul_def, Rat.normalize_eq_mkRat]

/-- Mathematical floor of a rational, computed from the reduced fraction. -/
def ratFloor (q : Rat) : Int := q.num / (q.den : Int)

/-- Mathematical ceiling of a rational, computed from the reduced fraction. -/
def ratCeil (q : Rat) : Int := -((-q.num) / (q.den : Int))

theorem ratFloor_eq (q : Rat) : ratFloor q = ⌊q⌋ := (Rat.floor_def).symm

theorem ratCeil_eq (q : Rat) : ratCeil q = ⌈q⌉ := by
  have h1 : ⌊-q⌋ = -⌈q⌉ := Int.floor_neg
  have h2 : ⌊-q⌋ = (-q).num / ((-q).den : Int) := Rat.floor_def
  rw [Rat.neg_num, Rat.neg_den] at h2
  rw [ratCeil, ← h2, h1, neg_neg]

/-- JavaScript's `Math.round`: round half toward positive infinity. -/
def jsRound (q : Rat) : Int := ratFloor (qAdd q (mkRat 1 2))

theorem jsRound_eq (q : Rat) : jsRound q = ⌊q + (1 : Rat)/2⌋ := by
  rw [jsRound, ratFloor_eq, qAdd_eq]
  norm_num [Rat.mkRat_eq_divInt, Rat.divInt_eq_div]

/-- `Math.ceil(t / l)` for natural `t`, `l` as it appears in the pagination code. -/
def jsCeilDiv (t l : Nat) : Int := ratCeil (mkRat (t : Int) l)

/-- JavaScript's string truthiness/`trim` test: `!s || s.trim() === ''`
holds exactly when every character of `s` is whitespace. -/
def isBlank (s : String) : Bool := s.data.all (fun c => c.isWhitespace)

/-- `Number.isInteger` on an (always finite) rational. -/
def jsIsInteger (q : Rat) : Bool := q.den == 1

/-! ## Data model (first variant: `books` / `orders` / `order_items`) -/

/-- A `genres` row.  `deleted_at` is the soft-delete tombstone. -/
structure Genre where
  id : String
  name : String
  deleted_at : Option Nat
  deriving DecidableEq

/-- A `books` row.  `deleted_at` is the soft-delete tombstone. -/
structure Book where
  id : String
  title : String
  writer : String
  publisher : String
  publication_year : Rat
  description : Option String
  price : Rat
  stock_quantity : Rat
  genre_id : String
  deleted_at : Option Nat
  deriving DecidableEq

/-- An `orders` row. -/
structure Order where
  id : Nat
  user_id : String
  deriving DecidableEq

/-- An `order_items` row (no price snapshot is stored). -/
structure OrderItem where
  order_id : Nat
  book_id : String
  quantity : Rat
  deriving DecidableEq

/-- The relational store.  `nextOrderId` models the id generator. -/
structure DB where
  genres : List Genre
  books : List Book
  orders : List Order
  order_items : List OrderItem
  nextOrderId : Nat
  deriving DecidableEq

/-- One entry of the request body's `items` array. -/
structure ReqItem where
  book_id : String
  quantity : Rat
  deriving DecidableEq

/-! ## Order placement (first variant `createTransaction`) -/

/-- `tx.books.findFirst({where: {id, deleted_at: null}})`. -/
def findBook (db : DB) (bid : String) : Option Book :=
  db.books.find? (fun b => b.id == bid && b.deleted_at == none)

/-- `tx.books.update({where: {id}, data: {stock_quantity: {decrement: q}}})`. -/
def decrementStock (books : List Book) (bid : String) (q : Rat) : List Book :=
  books.map (fun b =>
    if b.id == bid then { b with stock_quantity := qSub b.stock_quantity q } else b)

/-- The two abort conditions raised inside the Prisma transaction. -/
inductive TxError where
  | bookNotFound (book_id : String)
  | insufficientStock (title : String) (available requested : Rat)
  deriving DecidableEq

/-- The per-item loop of the transaction body: look the book up among
non-deleted rows, check stock, decrement, and accumulate the pending
order item `{book_id, quantity}`. -/
def runItems : DB → List ReqItem → List (String × Rat) →
    Except TxError (DB × List (String × Rat))
  | db, [], acc => .ok (db, acc)
  | db, item :: rest, acc =>
    match findBook db item.book_id with
    | none => .error (.bookNotFound item.book_id)
    | some book =>
      if book.stock_quantity < item.quantity then
        .error (.insufficientStock book.title book.stock_quantity item.quantity)
      else
        runItems { db with books := decrementStock db.books item.book_id item.quantity }
          rest (acc ++ [(item.book_id, item.quantity)])

/-- `tx.orders.create` with nested `order_items.create`: one new `orders`
row owning one `order_items` row per accumulated item. -/
def createOrderRow (db : DB) (userId : String) (orderItems : List (String × Rat)) :
    DB × Order :=
  let oid := db.nextOrderId
  ({ db with
      orders := db.orders ++ [{ id := oid, user_id := userId }],
      order_items := db.order_items ++
        orderItems.map (fun p => { order_id := oid, book_id := p.1, quantity := p.2 }),
      nextOrderId := oid + 1 },
   { id := oid, user_id := userId })

/-- The HTTP outcome of `POST /transactions` (first variant).
`badRequestItems`, `invalidBookId i`, `invalidQuantity i` and
`insufficientStock` carry status 400, `notFound` status 404,
`created` status 201. -/
inductive TxResponse where
  | badRequestItems
  | invalidBookId (index : Nat)
  | invalidQuantity (index : Nat)
  | notFound (book_id : String)
  | insufficientStock (title : String) (available requested : Rat)
  | created (order : Order)
  deriving DecidableEq

/-- HTTP status code of a first-variant transaction response. -/
def TxResponse.status : TxResponse → Nat
  | .badRequestItems => 400
  | .invalidBookId _ => 400
  | .invalidQuantity _ => 400
  | .notFound _ => 404
  | .insufficientStock _ _ _ => 400
  | .created _ => 201

/-- First-variant per-item request validation: blank `book_id` fails, and a
quantity `< 1` fails; a non-integer quantity `≥ 1` passes (there is no
`Number.isInteger` check in this variant). -/
def findValErr : Nat → List ReqItem → Option TxResponse
  | _, [] => none
  | i, item :: rest =>
    if isBlank item.book_id then some (.invalidBookId i)
    else if item.quantity < 1 then some (.invalidQuantity i)
    else findValErr (i + 1) rest

/-- First-variant `createTransaction`: validation, then the Prisma
transaction (all-or-nothing: an error returns the caller's `db`). -/
def createTransaction (db : DB) (userId : String) (items : List ReqItem) :
    TxResponse × DB :=
  if items.isEmpty then (.badRequestItems, db)
  else
    match findValErr 0 items with
    | some r => (r, db)
    | none =>
      match runItems db items [] with
      | .error (.bookNotFound bid) => (.notFound bid, db)
      | .error (.insufficientStock t a r) => (.insufficientStock t a r, db)
      | .ok (db1, orderItems) =>
        let res := createOrderRow db1 userId orderItems
        (.created res.2, res.1)

/-! ## Transaction listing (first variant `getAllTransactions`) -/

/-- The pagination envelope returned by the listing endpoints. -/
structure Pagination where
  page : Nat
  limit : Nat
  total : Nat
  total_pages : Int
  deriving DecidableEq

/-- First-variant `GET /transactions`: all orders, ordered by the store
(`created_at desc`, modelled by the opaque `sorter`), sliced by
`skip = (page-1)*limit` / `take = limit`.  `total_pages` is
`Math.ceil(total / limit)`. -/
def getAllTransactions (db : DB) (sorter : List Order → List Order)
    (page limit : Nat) : List Order × Pagination :=
  let skip := (page - 1) * limit
  let total := db.orders.length
  (((sorter db.orders).drop skip).take limit,
   { page := page, limit := limit, total := total,
     total_pages := jsCeilDiv total limit })

/-! ## Statistics (first variant `getTransactionStatistics`) -/

/-- A row used when a relation lookup cannot find its target; under the
well-formedness used by the theorems (every `order_items.book_id` has a
`books` row) it is never consulted. -/
def defaultBook : Book :=
  { id := "", title := "", writer := "", publisher := "",
    publication_year := 0, description := none, price := 0,
    stock_quantity := 0, genre_id := "", deleted_at := none }

/-- Fallback for a dangling `genre_id` (never consulted under
well-formedness). -/
def defaultGenre : Genre := { id := "", name := "", deleted_at := none }

/-- The `include: {book: ...}` join of an order item: the `books` row
with the item's `book_id` (no soft-delete filter on a relation join). -/
def bookOf (db : DB) (bid : String) : Book :=
  (db.books.find? (fun b => b.id == bid)).getD defaultBook

/-- The `include: {genre: ...}` join of a book. -/
def genreNameOf (db : DB) (gid : String) : String :=
  ((db.genres.find? (fun g => g.id == gid)).getD defaultGenre).name

/-- One per-genre rollup entry of the statistics response. -/
structure GenreStat where
  genreName : String
  totalSold : Rat
  totalRevenue : Rat
  deriving DecidableEq

/-- The `"No data"` sentinel used when no genre has any sales. -/
def noDataGenre : GenreStat := { genreName := "No data", totalSold := 0, totalRevenue := 0 }

/-- `genreStats[genreId]` update: insert a zero entry on first sight of
the genre (JS objects keep string-key insertion order), then add the
item's quantity and revenue. -/
def updateGenreStats (stats : List (String × GenreStat)) (gid gname : String)
    (q rev : Rat) : List (String × GenreStat) :=
  if stats.any (fun p => p.1 == gid) then
    stats.map (fun p =>
      if p.1 == gid then
        (p.1, { p.2 with totalSold := qAdd p.2.totalSold q,
                         totalRevenue := qAdd p.2.totalRevenue rev })
      else p)
  else
    stats ++ [(gid, { genreName := gname, totalSold := q, totalRevenue := rev })]

/-- The body of the `orderItems.forEach` loop: one step of the revenue /
per-genre accumulation. -/
def statsStep (db : DB) (acc : Rat × List (String × GenreStat)) (item : OrderItem) :
    Rat × List (String × GenreStat) :=
  let book := bookOf db item.book_id
  let itemRevenue := qMul item.quantity book.price
  (qAdd acc.1 itemRevenue,
   updateGenreStats acc.2 book.genre_id (genreNameOf db book.genre_id)
     item.quantity itemRevenue)

/-- The whole `forEach` accumulation over every `order_items` row. -/
def statsFold (db : DB) : Rat × List (String × GenreStat) :=
  db.order_items.foldl (statsStep db) (0, [])

/-- `genreArray.reduce((best, g) => key best < key g ? g : best)` —
the source's two `reduce` lambdas keep the accumulator unless the next
entry is strictly better, so ties keep the earlier entry. -/
def pickBy (key : GenreStat → Rat) : List GenreStat → GenreStat → GenreStat
  | [], acc => acc
  | g :: rest, acc => pickBy key rest (if key acc < key g then g else acc)

/-- `genre.totalSold > max.totalSold ? genre : max` over the array,
with the sentinel for an empty array. -/
def genreWithMost (arr : List GenreStat) : GenreStat :=
  match arr with
  | [] => noDataGenre
  | g :: rest => pickBy (fun s => s.totalSold) rest g

/-- `genre.totalSold < min.totalSold ? genre : min` over the array: the
comparison `key acc < key g` with the negated key is exactly
`g.totalSold < acc.totalSold`. -/
def genreWithLeast (arr : List GenreStat) : GenreStat :=
  match arr with
  | [] => noDataGenre
  | g :: rest => pickBy (fun s => -s.totalSold) rest g

/-- The statistics response body (first variant). -/
structure Statistics where
  totalTransactions : Nat
  totalRevenue : Rat
  averageTransactionAmount : Int
  genreWithMostSales : GenreStat
  genreWithLeastSales : GenreStat
  deriving DecidableEq

/-- First-variant `GET /transactions/statistics`. -/
def getTransactionStatistics (db : DB) : Statistics :=
  let totalOrders := db.orders.length
  let folded := statsFold db
  let genreArray := folded.2.map (fun p => p.2)
  { totalTransactions := totalOrders,
    totalRevenue := folded.1,
    averageTransactionAmount :=
      if totalOrders > 0 then jsRound (qDivNat folded.1 totalOrders) else 0,
    genreWithMostSales := genreWithMost genreArray,
    genreWithLeastSales := genreWithLeast genreArray }

/-! ## Book catalog controller -/

/-- Case-insensitive substring test over the character lists
(the store's `contains, mode: 'insensitive'`): `leadEqChars n h` says
`n` is an initial run of `h`. -/
def leadEqChars : List Char → List Char → Bool
  | [], _ => true
  | _ :: _, [] => false
  | a :: as, b :: bs => a == b && leadEqChars as bs

/-- `n` occurs contiguously inside `h`. -/
def subOccurs (n : List Char) : List Char → Bool
  | [] => n.isEmpty
  | c :: rest => leadEqChars n (c :: rest) || subOccurs n rest

/-- Case-insensitive `contains` of `needle` in `hay`. -/
def containsIns (hay needle : String) : Bool :=
  subOccurs (needle.data.map Char.toLower) (hay.data.map Char.toLower)

/-- The `OR` search block of `getBooks`/`getBooksByGenre`: the search
term matches title, writer or publisher, case-insensitively. -/
def matchesSearch (s : String) (b : Book) : Bool :=
  containsIns b.title s || containsIns b.writer s || containsIns b.publisher s

/-- The `where` object of `getBooks`: non-deleted rows, intersected
with the search block when a (truthy) search term is given. -/
def booksWhere (search : Option String) (b : Book) : Bool :=
  b.deleted_at == none &&
    (match search with
     | none => true
     | some s => matchesSearch s b)

/-- `GET /books`: count and page the matching rows.  The store's ORDER
BY (title / publication year / created_at) is the opaque `sorter`. -/
def getBooks (db : DB) (search : Option String)
    (sorter : List Book → List Book) (page limit : Nat) :
    List Book × Pagination :=
  let matching := db.books.filter (booksWhere search)
  let total := matching.length
  let skip := (page - 1) * limit
  (((sorter matching).drop skip).take limit,
   { page := page, limit := limit, total := total,
     total_pages := jsCeilDiv total limit })

/-- The request body of `POST /books` (the store-generated id is
modelled as part of the input). -/
structure NewBook where
  id : String
  title : String
  writer : String
  publisher : String
  publication_year : Rat
  description : Option String
  price : Rat
  stock_quantity : Rat
  genre_id : String
  deriving DecidableEq

/-- Outcomes of the book-mutation endpoints.  `invalidYear`,
`invalidPrice`, `stockNotInt`, `negStock` are 422; `titleExists` 400;
`genreNotFound` and `bookNotFound` 404; `done` 200/201;
`deleted` 200. -/
inductive BookRes where
  | invalidYear
  | invalidPrice
  | stockNotInt
  | negStock
  | titleExists
  | genreNotFound
  | bookNotFound
  | done (b : Book)
  | deleted (id : String)
  deriving DecidableEq

/-- The `books` row inserted by `createBook` for a given body. -/
def mkBook (nb : NewBook) : Book :=
  { id := nb.id, title := nb.title, writer := nb.writer,
    publisher := nb.publisher, publication_year := nb.publication_year,
    description := nb.description, price := nb.price,
    stock_quantity := nb.stock_quantity, genre_id := nb.genre_id,
    deleted_at := none }

/-- `POST /books` (`createBook`): field validations, duplicate-title
check among non-deleted rows, then a genre lookup by plain
`findUnique({where: {id}})` — with **no** `deleted_at` filter — and the
insert. -/
def createBook (db : DB) (currentYear : Rat) (nb : NewBook) : BookRes × DB :=
  if currentYear < nb.publication_year then (.invalidYear, db)
  else if nb.price < 0 then (.invalidPrice, db)
  else if !jsIsInteger nb.stock_quantity then (.stockNotInt, db)
  else if nb.stock_quantity < 0 then (.negStock, db)
  else if (db.books.find? (fun b => b.title == nb.title && b.deleted_at == none)).isSome
    then (.titleExists, db)
  else if (db.genres.find? (fun g => g.id == nb.genre_id)).isNone
    then (.genreNotFound, db)
  else
    (.done (mkBook nb), { db with books := db.books ++ [mkBook nb] })

/-- The body of `PATCH /books/:book_id`: absent fields are `none`. -/
structure UpdateData where
  title : Option String
  writer : Option String
  publisher : Option String
  publication_year : Option Rat
  description : Option String
  price : Option Rat
  stock_quantity : Option Rat
  genre_id : Option String
  deriving DecidableEq

/-- `prisma.books.update({where: {id}, data})`: overwrite the present
fields of every row with this id. -/
def applyUpdate (u : UpdateData) (b : Book) : Book :=
  { b with
      title := u.title.getD b.title,
      writer := u.writer.getD b.writer,
      publisher := u.publisher.getD b.publisher,
      publication_year := u.publication_year.getD b.publication_year,
      description := match u.description with | some d => some d | none => b.description,
      price := u.price.getD b.price,
      stock_quantity := u.stock_quantity.getD b.stock_quantity,
      genre_id := u.genre_id.getD b.genre_id }

/-- `PATCH /books/:book_id` (`updateBook`).  The genre check runs only
when `genre_id` is truthy (present and non-empty) and, like
`createBook`, uses `findUnique` with **no** `deleted_at` filter. -/
def updateBook (db : DB) (currentYear : Rat) (bid : String) (u : UpdateData) :
    BookRes × DB :=
  match db.books.find? (fun b => b.id == bid && b.deleted_at == none) with
  | none => (.bookNotFound, db)
  | some existing =>
    if (match u.publication_year with
        | some y => decide (currentYear < y)
        | none => false) then (.invalidYear, db)
    else if (match u.price with
        | some p => decide (p < 0)
        | none => false) then (.invalidPrice, db)
    else if (match u.stock_quantity with
        | some s => !jsIsInteger s
        | none => false) then (.stockNotInt, db)
    else if (match u.stock_quantity with
        | some s => decide (s < 0)
        | none => false) then (.negStock, db)
    else if (match u.title with
        | some t => !isBlank t && t != existing.title &&
            (db.books.find? (fun (b : Book) =>
              b.title == t && b.deleted_at == none && b.id != bid)).isSome
        | none => false) then (.titleExists, db)
    else if (match u.genre_id with
        | some g => g != "" && (db.genres.find? (fun (gr : Genre) => gr.id == g)).isNone
        | none => false) then (.genreNotFound, db)
    else
      (.done (applyUpdate u existing),
       { db with books := db.books.map (fun (b : Book) =>
           if b.id == bid then applyUpdate u b else b) })

/-- Outcome of `GET /books/genre/:genre_id`. -/
inductive GenreListRes where
  | genreNotFound
  | page (books : List Book) (pagination : Pagination)
  deriving DecidableEq

/-- `GET /books/genre/:genre_id` (`getBooksByGenre`): the genre
existence check is a plain `findUnique({where: {id}})` with **no**
`deleted_at` filter; the listing itself only shows non-deleted books of
the genre. -/
def getBooksByGenre (db : DB) (gid : String) (search : Option String)
    (sorter : List Book → List Book) (page limit : Nat) : GenreListRes :=
  if (db.genres.find? (fun g => g.id == gid)).isNone then .genreNotFound
  else
    let matching := db.books.filter (fun b => b.genre_id == gid && booksWhere search b)
    let total := matching.length
    let skip := (page - 1) * limit
    .page (((sorter matching).drop skip).take limit)
      { page := page, limit := limit, total := total,
        total_pages := jsCeilDiv total limit }

/-- `DELETE /books/:book_id` (`deleteBook`): look the book up among
non-deleted rows; absent → 404 and no write; otherwise set
`deleted_at = now` on the rows with this id. -/
def deleteBook (db : DB) (now : Nat) (bid : String) : BookRes × DB :=
  match db.books.find? (fun b => b.id == bid && b.deleted_at == none) with
  | none => (.bookNotFound, db)
  | some _ =>
    (.deleted bid,
     { db with books := db.books.map (fun b =>
         if b.id == bid then { b with deleted_at := some now } else b) })

/-! ## Second controller variant (`book` / `transaction` /
`transactionDetail` schema, price snapshot, 422 validation) -/

/-- A `Book` row of the second variant's schema (no soft delete). -/
structure BookV2 where
  id : String
  title : String
  price : Rat
  stock : Rat
  genreId : String
  deriving DecidableEq

/-- A `Transaction` row (second variant): stores `totalAmount`. -/
structure TransactionV2 where
  id : Nat
  userId : String
  totalAmount : Rat
  deriving DecidableEq

/-- A `TransactionDetail` row (second variant): snapshots the price. -/
structure TransactionDetailV2 where
  transactionId : Nat
  bookId : String
  quantity : Rat
  priceAtPurchase : Rat
  deriving DecidableEq

/-- The second variant's store. -/
structure DBV2 where
  books : List BookV2
  transactionRows : List TransactionV2
  details : List TransactionDetailV2
  nextId : Nat
  deriving DecidableEq

/-- The HTTP outcome of the second variant's `createTransaction`:
`quantityNotInt` and `invalidQuantity` carry status 422 here. -/
inductive TxResponseV2 where
  | badRequestItems
  | invalidBookId (index : Nat)
  | quantityNotInt (index : Nat)
  | invalidQuantity (index : Nat)
  | notFound (book_id : String)
  | insufficientStock (title : String) (available requested : Rat)
  | created (t : TransactionV2)
  deriving DecidableEq

/-- HTTP status code of a second-variant transaction response. -/
def TxResponseV2.status : TxResponseV2 → Nat
  | .badRequestItems => 400
  | .invalidBookId _ => 400
  | .quantityNotInt _ => 422
  | .invalidQuantity _ => 422
  | .notFound _ => 404
  | .insufficientStock _ _ _ => 400
  | .created _ => 201

/-- Second-variant per-item validation: blank `book_id` (400), then
`!Number.isInteger(quantity)` (422), then `quantity < 1` (422). -/
def findValErrV2 : Nat → List ReqItem → Option TxResponseV2
  | _, [] => none
  | i, item :: rest =>
    if isBlank item.book_id then some (.invalidBookId i)
    else if !jsIsInteger item.quantity then some (.quantityNotInt i)
    else if item.quantity < 1 then some (.invalidQuantity i)
    else findValErrV2 (i + 1) rest

/-- `tx.book.findUnique({where: {id}})` — no soft-delete filter in the
second variant's schema. -/
def findBookV2 (db : DBV2) (bid : String) : Option BookV2 :=
  db.books.find? (fun b => b.id == bid)

/-- The second variant's per-item transaction loop: stock check,
decrement, and accumulation of `totalAmount` and the detail rows with
`priceAtPurchase` snapshots. -/
def runItemsV2 : DBV2 → List ReqItem → Rat → List (String × Rat × Rat) →
    Except TxError (DBV2 × Rat × List (String × Rat × Rat))
  | db, [], total, acc => .ok (db, total, acc)
  | db, item :: rest, total, acc =>
    match findBookV2 db item.book_id with
    | none => .error (.bookNotFound item.book_id)
    | some book =>
      if book.stock < item.quantity then
        .error (.insufficientStock book.title book.stock item.quantity)
      else
        runItemsV2
          { db with books := db.books.map (fun b =>
              if b.id == item.book_id then { b with stock := qSub b.stock item.quantity } else b) }
          rest (qAdd total (qMul book.price item.quantity))
          (acc ++ [(item.book_id, item.quantity, book.price)])

/-- Second-variant `createTransaction` handler. -/
def createTransactionV2 (db : DBV2) (userId : String) (items : List ReqItem) :
    TxResponseV2 × DBV2 :=
  if items.isEmpty then (.badRequestItems, db)
  else
    match findValErrV2 0 items with
    | some r => (r, db)
    | none =>
      match runItemsV2 db items 0 [] with
      | .error (.bookNotFound bid) => (.notFound bid, db)
      | .error (.insufficientStock t a r) => (.insufficientStock t a r, db)
      | .ok (db1, total, acc) =>
        let tid := db1.nextId
        let row : TransactionV2 := { id := tid, userId := userId, totalAmount := total }
        (.created row,
         { db1 with
             transactionRows := db1.transactionRows ++ [row],
             details := db1.details ++ acc.map (fun p =>
               { transactionId := tid, bookId := p.1, quantity := p.2.1,
                 priceAtPurchase := p.2.2 }),
             nextId := tid + 1 })

/-! ## Specification-side definitions

These restate the spec's vocabulary independently of the control flow of
the embedded handlers; the claim theorems connect the two. -/

/-- Sum of a list of rationals through the kernel-reducible `qAdd`. -/
def qSum (l : List Rat) : Rat := l.foldr qAdd 0

theorem qSum_eq (l : List Rat) : qSum l = l.sum := by
  induction l with
  | nil => rfl
  | cons a t ih => simp [qSum, List.foldr, qAdd_eq, List.sum_cons] at ih ⊢; rw [ih]

/-- Spec §4.3: Σ over all OrderItems of `quantity × book.current_price`. -/
def specRevenue (db : DB) : Rat :=
  qSum (db.order_items.map (fun it => qMul it.quantity (bookOf db it.book_id).price))

/-- Total quantity of a given book over all OrderItems. -/
def soldQty (db : DB) (bid : String) : Rat :=
  qSum ((db.order_items.filter (fun it => it.book_id == bid)).map (fun it => it.quantity))

/-- Raise the price of every `books` row with the given id by `d`
(a later `PATCH /books` price change). -/
def bumpPrice (db : DB) (bid : String) (d : Rat) : DB :=
  { db with books := db.books.map (fun b =>
      if b.id == bid then { b with price := qAdd b.price d } else b) }

/-- Referential well-formedness used by the statistics claims: every
order item's `book_id` has a `books` row. -/
def wfItems (db : DB) : Bool :=
  db.order_items.all (fun it => db.books.any (fun b => b.id == it.book_id))

/-- The first entry of the rollup array attaining the maximum
`totalSold` (the spec's tie-break: first-encountered genre wins). -/
def firstMaxEntry (l : List GenreStat) : Option GenreStat :=
  l.find? (fun g => l.all (fun g2 => g2.totalSold ≤ g.totalSold))

/-- The first entry of the rollup array attaining the minimum
`totalSold`. -/
def firstMinEntry (l : List GenreStat) : Option GenreStat :=
  l.find? (fun g => l.all (fun g2 => g.totalSold ≤ g2.totalSold))

/-- The per-genre rollup array (`Object.values(genreStats)`). -/
def genreArrayOf (db : DB) : List GenreStat := (statsFold db).2.map (fun p => p.2)

/-- `g` is at least as good (under `key`) as every entry of `l` — the
first entry of `l` satisfying this is the first occurrence of the
optimum, which is what a strict-comparison `reduce` returns. -/
def isBest (key : GenreStat → Rat) (l : List GenreStat) (g : GenreStat) : Bool :=
  l.all (fun g2 => key g2 ≤ key g)

/-- The net effect of a successful order on one `books` row: decrement
by the quantity of the (unique) item referencing it, if any. -/
def netDecrement (items : List ReqItem) (b : Book) : Book :=
  match items.find? (fun it => it.book_id == b.id) with
  | some it => { b with stock_quantity := qSub b.stock_quantity it.quantity }
  | none => b

/-- The claim C2/C5 failure condition, read on the pre-state: the item's
book is absent among non-deleted rows, or its stock is short. -/
def staticFail (db : DB) (it : ReqItem) : Bool :=
  match findBook db it.book_id with
  | none => true
  | some b => b.stock_quantity < it.quantity

/-- First-variant validation-rejection responses (HTTP 400 before any
store access). -/
def isValidationError : TxResponse → Bool
  | .badRequestItems => true
  | .invalidBookId _ => true
  | .invalidQuantity _ => true
  | _ => false

/-- Second-variant validation-rejection responses (HTTP 400/422 before
any store access). -/
def isValidationErrorV2 : TxResponseV2 → Bool
  | .badRequestItems => true
  | .invalidBookId _ => true
  | .quantityNotInt _ => true
  | .invalidQuantity _ => true
  | _ => false

/-- Whether a first-variant response is the 201 success. -/
def isCreated : TxResponse → Bool
  | .created _ => true
  | _ => false

/-! ## Helper lemmas -/

theorem findCongr {α : Type} (p q : α → Bool) :
    ∀ l : List α, (∀ a ∈ l, p a = q a) → l.find? p = l.find? q
  | [], _ => rfl
  | a :: l, h => by
    simp only [List.find?]
    rw [h a (by simp)]
    cases hq : q a with
    | true => rfl
    | false => exact findCongr p q l (fun x hx => h x (by simp [hx]))

theorem find_map {α : Type} (f : α → α) (p : α → Bool)
    (hp : ∀ a, p (f a) = p a) :
    ∀ l : List α, (l.map f).find? p = (l.find? p).map f
  | [] => rfl
  | a :: l => by
    simp only [List.map_cons, List.find?]
    rw [hp a]
    cases p a with
    | true => rfl
    | false => exact find_map f p hp l

/-- Applying the decrement map for one item, seen through `findBook`. -/
theorem findBook_decrement (db : DB) (bid : String) (q : Rat) (target : String) :
    findBook { db with books := decrementStock db.books bid q } target =
      (findBook db target).map
        (fun b => if b.id == bid then { b with stock_quantity := qSub b.stock_quantity q } else b) := by
  unfold findBook decrementStock
  exact find_map _ _ (fun b => by by_cases h : b.id == bid <;> simp [h]) db.books

theorem findBook_decrement_ne (db : DB) (bid : String) (q : Rat) (target : String)
    (h : target ≠ bid) :
    findBook { db with books := decrementStock db.books bid q } target = findBook db target := by
  rw [findBook_decrement]
  cases hf : findBook db target with
  | none => rfl
  | some b =>
    have hf2 : db.books.find? (fun x => x.id == target && x.deleted_at == none) = some b := hf
    have hb := List.find?_some hf2
    have hbid : b.id = target := by
      have := (Bool.and_eq_true _ _).mp hb
      exact eq_of_beq this.1
    simp [Option.map, hbid, h]

/-- The cumulative stock decrement of a successful per-item loop. -/
def applyDec (books : List Book) (items : List ReqItem) : List Book :=
  items.foldl (fun bs it => decrementStock bs it.book_id it.quantity) books

/-! ## Concrete fixtures used by witnesses and counterexamples -/

/-- Fixture genre: active. -/
def gFiction : Genre := { id := "g1", name := "Fiction", deleted_at := none }

/-- Fixture genre: active. -/
def gScience : Genre := { id := "g2", name := "Science", deleted_at := none }

/-- Fixture genre: soft-deleted. -/
def gAncient : Genre := { id := "g3", name := "Ancient", deleted_at := some 5 }

/-- Fixture book: active, stock 5, price 10, genre `g1`. -/
def bDune : Book :=
  { id := "b1", title := "Dune", writer := "Herbert", publisher := "Ace",
    publication_year := 1965, description := none, price := 10,
    stock_quantity := 5, genre_id := "g1", deleted_at := none }

/-- Fixture book: active, stock 2, price 20, genre `g2`. -/
def bCosmos : Book :=
  { id := "b2", title := "Cosmos", writer := "Sagan", publisher := "Random",
    publication_year := 1980, description := none, price := 20,
    stock_quantity := 2, genre_id := "g2", deleted_at := none }

/-- Fixture book: soft-deleted at time 9. -/
def bGone : Book :=
  { id := "b3", title := "Gone", writer := "Nobody", publisher := "Void",
    publication_year := 2000, description := none, price := 7,
    stock_quantity := 4, genre_id := "g1", deleted_at := some 9 }

/-- The main fixture store: one past order of 2×Dune and 1×Cosmos. -/
def exDb : DB :=
  { genres := [gFiction, gScience, gAncient],
    books := [bDune, bCosmos, bGone],
    orders := [{ id := 1, user_id := "u1" }],
    order_items := [{ order_id := 1, book_id := "b1", quantity := 2 },
                    { order_id := 1, book_id := "b2", quantity := 1 }],
    nextOrderId := 2 }

/-- Second-variant fixture store. -/
def exDbV2 : DBV2 :=
  { books := [{ id := "b1", title := "Dune", price := 10, stock := 5, genreId := "g1" }],
    transactionRows := [], details := [], nextId := 1 }

/-! ## Theorems -/

theorem findValErr_none (items : List ReqItem)
    (h : ∀ it ∈ items, isBlank it.book_id = false ∧ 1 ≤ it.quantity) :
    ∀ i, findValErr i items = none := by
  induction items with
  | nil => intro i; rfl
  | cons it rest ih =>
    intro i
    have hit := h it (by simp)
    have hq : ¬ it.quantity < 1 := not_lt.mpr hit.2
    simp only [findValErr, hit.1, Bool.false_eq_true, if_false, if_neg hq]
    exact ih (fun x hx => h x (by simp [hx])) (i + 1)

theorem findValErr_ge_one (items : List ReqItem) :
    ∀ i, findValErr i items = none → ∀ it ∈ items, ¬ it.quantity < 1 := by
  induction items with
  | nil => intro i _ it hmem; cases hmem
  | cons hd rest ih =>
    intro i hnone it hmem
    by_cases hb : isBlank hd.book_id
    · simp [findValErr, hb] at hnone
    · by_cases hq : hd.quantity < 1
      · simp [findValErr, hb, hq] at hnone
      · rcases List.mem_cons.mp hmem with h1 | h2
        · exact h1 ▸ hq
        · exact ih (i + 1) (by simpa [findValErr, hb, hq] using hnone) it h2

/-- **C10.** Calling `deleteBook` on a book whose `deleted_at` is
already set returns the 404 branch and leaves the store — in particular
the original tombstone timestamp — unchanged: the soft-delete write
only happens when the id is found among non-deleted rows. -/
theorem deleteBook_on_deleted (db : DB) (now : Nat) (bid : String)
    (hsome : ∃ b ∈ db.books, b.id = bid ∧ b.deleted_at ≠ none)
    (hall : ∀ b ∈ db.books, b.id = bid → b.deleted_at ≠ none) :
    deleteBook db now bid = (.bookNotFound, db) := by
  have hnone : db.books.find? (fun b => b.id == bid && b.deleted_at == none) = none := by
    rw [List.find?_eq_none]
    intro b hb hp
    have hp2 := (Bool.and_eq_true _ _).mp hp
    exact hall b hb (eq_of_beq hp2.1) (by simpa using eq_of_beq hp2.2)
  unfold deleteBook
  rw [hnone]

/-- Witness for C10 on the fixture store: `b3` is already
soft-deleted (at time 9), so deleting it again 404s and preserves
everything. -/
theorem deleteBook_on_deleted_witness :
    deleteBook exDb 77 "b3" = (.bookNotFound, exDb) :=
  deleteBook_on_deleted exDb 77 "b3" (by decide) (by decide)

/-- **C9.** The genre lookups of `createBook`, `updateBook` and
`getBooksByGenre` use `findUnique({where: {id}})` with no
`deleted_at` filter, so a soft-deleted genre does **not** trigger the
genre-not-found branch: a book can be created under it (and the insert
happens), an update re-assigning a book to it is not rejected as
genre-not-found, and its book listing is served. -/
theorem softDeletedGenre_passes (db : DB) (gid : String) (g : Genre)
    (hg : g ∈ db.genres) (hgid : g.id = gid) (hdel : g.deleted_at ≠ none)
    (currentYear : Rat) (nb : NewBook) (hnb : nb.genre_id = gid)
    (hyear : nb.publication_year ≤ currentYear) (hprice : 0 ≤ nb.price)
    (hstockInt : jsIsInteger nb.stock_quantity = true) (hstock : 0 ≤ nb.stock_quantity)
    (htitle : ∀ b ∈ db.books, b.deleted_at = none → b.title ≠ nb.title)
    (bid : String) (u : UpdateData) (hu : u.genre_id = some gid)
    (search : Option String) (sorter : List Book → List Book) (page limit : Nat) :
    createBook db currentYear nb = (.done (mkBook nb), { db with books := db.books ++ [mkBook nb] }) ∧
    (updateBook db currentYear bid u).1 ≠ .genreNotFound ∧
    getBooksByGenre db gid search sorter page limit ≠ .genreNotFound := by
  have hfind : (db.genres.find? (fun gr => gr.id == gid)).isSome := by
    rw [List.find?_isSome]
    exact ⟨g, hg, by simp [hgid]⟩
  have hfindn : (db.genres.find? (fun gr => gr.id == gid)).isNone = false := by
    cases hh : db.genres.find? (fun gr => gr.id == gid) with
    | none => rw [hh] at hfind; simp at hfind
    | some _ => rfl
  refine ⟨?_, ?_, ?_⟩
  · have htitleFind : (db.books.find? (fun b => b.title == nb.title && b.deleted_at == none)) = none := by
      rw [List.find?_eq_none]
      intro b hb hp
      have hp2 := (Bool.and_eq_true _ _).mp hp
      exact htitle b hb (by simpa using eq_of_beq hp2.2) (eq_of_beq hp2.1)
    unfold createBook
    rw [if_neg (not_lt.mpr hyear), if_neg (not_lt.mpr hprice)]
    rw [if_neg (by simp [hstockInt]), if_neg (not_lt.mpr hstock)]
    rw [htitleFind]
    simp only [Option.isSome_none, Bool.false_eq_true, if_false]
    rw [hnb, hfindn]
    simp
  · unfold updateBook
    cases hfb : db.books.find? (fun b => b.id == bid && b.deleted_at == none) with
    | none => simp
    | some existing =>
      simp only
      by_cases h1 : (match u.publication_year with
          | some y => decide (currentYear < y)
          | none => false) = true
      · simp [h1]
      · rw [if_neg h1]
        by_cases h2 : (match u.price with
            | some p => decide (p < 0)
            | none => false) = true
        · simp [h2]
        · rw [if_neg h2]
          by_cases h3 : (match u.stock_quantity with
              | some s => !jsIsInteger s
              | none => false) = true
          · simp [h3]
          · rw [if_neg h3]
            by_cases h4 : (match u.stock_quantity with
                | some s => decide (s < 0)
                | none => false) = true
            · simp [h4]
            · rw [if_neg h4]
              by_cases h5 : (match u.title with
                  | some t => !isBlank t && t != existing.title &&
                      (db.books.find? (fun (b : Book) =>
                        b.title == t && b.deleted_at == none && b.id != bid)).isSome
                  | none => false) = true
              · simp [h5]
              · rw [if_neg h5]
                have h6 : (match u.genre_id with
                    | some gg => gg != "" && (db.genres.find? (fun (gr : Genre) => gr.id == gg)).isNone
                    | none => false) = false := by
                  rw [hu]
                  simp only
                  rw [hfindn]
                  simp
                rw [h6]
                simp
  · unfold getBooksByGenre
    rw [hfindn]
    simp

/-- Witness for C9 on the fixture store: genre `g3` is soft-deleted,
yet a fresh book is created under it, an update to it is not rejected
as genre-not-found, and its listing is served. -/
theorem softDeletedGenre_passes_witness :
    createBook exDb 2025 ⟨"b9", "Tides", "W", "P", 2000, none, 5, 3, "g3"⟩ =
      (.done (mkBook ⟨"b9", "Tides", "W", "P", 2000, none, 5, 3, "g3"⟩),
       { exDb with books := exDb.books ++ [mkBook ⟨"b9", "Tides", "W", "P", 2000, none, 5, 3, "g3"⟩] }) ∧
    (updateBook exDb 2025 "b1" ⟨none, none, none, none, none, none, none, some "g3"⟩).1 ≠ .genreNotFound ∧
    getBooksByGenre exDb "g3" none id 1 10 ≠ .genreNotFound :=
  softDeletedGenre_passes exDb "g3" gAncient (by decide) (by decide) (by decide)
    2025 ⟨"b9", "Tides", "W", "P", 2000, none, 5, 3, "g3"⟩ (by decide) (by decide)
    (by decide) (by decide) (by decide) (by decide)
    "b1" ⟨none, none, none, none, none, none, none, some "g3"⟩ (by decide)
    none id 1 10

theorem findValErr_valid : ∀ (i : Nat) (items : List ReqItem) (r : TxResponse),
    findValErr i items = some r → isValidationError r = true := by
  intro i items
  induction items generalizing i with
  | nil => intro r h; cases h
  | cons hd rest ih =>
    intro r h
    by_cases hb : isBlank hd.book_id
    · simp [findValErr, hb] at h; rw [← h]; rfl
    · by_cases hq : hd.quantity < 1
      · simp [findValErr, hb, hq] at h; rw [← h]; rfl
      · exact ih (i + 1) r (by simpa [findValErr, hb, hq] using h)

theorem findValErr_some_of_badqty (items : List ReqItem)
    (h : ∃ it ∈ items, it.quantity < 1) : ∀ i, (findValErr i items).isSome := by
  induction items with
  | nil => rcases h with ⟨it, hmem, _⟩; cases hmem
  | cons hd rest ih =>
    intro i
    by_cases hb : isBlank hd.book_id
    · simp [findValErr, hb]
    · by_cases hq : hd.quantity < 1
      · simp [findValErr, hb, hq]
      · simp only [findValErr, hb, Bool.false_eq_true, if_false, if_neg hq]
        rcases h with ⟨it, hmem, hlt⟩
        rcases List.mem_cons.mp hmem with h1 | h2
        · exact absurd (h1 ▸ hlt) hq
        · exact ih ⟨it, h2, hlt⟩ (i + 1)

theorem findValErrV2_valid : ∀ (i : Nat) (items : List ReqItem) (r : TxResponseV2),
    findValErrV2 i items = some r → isValidationErrorV2 r = true := by
  intro i items
  induction items generalizing i with
  | nil => intro r h; cases h
  | cons hd rest ih =>
    intro r h
    by_cases hb : isBlank hd.book_id
    · simp [findValErrV2, hb] at h; rw [← h]; rfl
    · by_cases hi : jsIsInteger hd.quantity
      · by_cases hq : hd.quantity < 1
        · simp [findValErrV2, hb, hi, hq] at h; rw [← h]; rfl
        · exact ih (i + 1) r (by simpa [findValErrV2, hb, hi, hq] using h)
      · simp [findValErrV2, hb, hi] at h; rw [← h]; rfl

theorem findValErrV2_some_of_bad (items : List ReqItem)
    (h : ∃ it ∈ items, jsIsInteger it.quantity = false ∨ it.quantity < 1) :
    ∀ i, (findValErrV2 i items).isSome := by
  induction items with
  | nil => rcases h with ⟨it, hmem, _⟩; cases hmem
  | cons hd rest ih =>
    intro i
    by_cases hb : isBlank hd.book_id
    · simp [findValErrV2, hb]
    · by_cases hi : jsIsInteger hd.quantity
      · by_cases hq : hd.quantity < 1
        · simp [findValErrV2, hb, hi, hq]
        · simp only [findValErrV2, hb, Bool.false_eq_true, if_false, hi, Bool.not_true,
            if_neg hq]
          rcases h with ⟨it, hmem, hbad⟩
          rcases List.mem_cons.mp hmem with h1 | h2
          · subst h1
            rcases hbad with hb1 | hb2
            · rw [hi] at hb1; cases hb1
            · exact absurd hb2 hq
          · exact ih ⟨it, h2, hbad⟩ (i + 1)
      · simp [findValErrV2, hb, hi]

/-- **C4 (amended).** A quantity `< 1` is rejected by the request
validation of both `createTransaction` variants before any store
access, leaving the store unchanged; a **non-integer** quantity is so
rejected (with 422) only by the second variant — the first variant has
no `Number.isInteger` check (see the counterexample). -/
theorem quantityValidation (db : DB) (db2 : DBV2) (u : String) (items : List ReqItem) :
    ((∃ it ∈ items, it.quantity < 1) →
      isValidationError (createTransaction db u items).1 = true ∧
      (createTransaction db u items).2 = db) ∧
    ((∃ it ∈ items, jsIsInteger it.quantity = false ∨ it.quantity < 1) →
      isValidationErrorV2 (createTransactionV2 db2 u items).1 = true ∧
      (createTransactionV2 db2 u items).2 = db2) := by
  constructor
  · rintro ⟨it, hmem, hlt⟩
    have hne : items.isEmpty = false := by
      cases items with
      | nil => cases hmem
      | cons a l => rfl
    have hs := findValErr_some_of_badqty items ⟨it, hmem, hlt⟩ 0
    unfold createTransaction
    rw [hne]
    cases hfv : findValErr 0 items with
    | none => rw [hfv] at hs; cases hs
    | some r =>
      simp only [Bool.false_eq_true, if_false, hfv]
      exact ⟨findValErr_valid 0 items r hfv, trivial⟩
  · rintro ⟨it, hmem, hbad⟩
    have hne : items.isEmpty = false := by
      cases items with
      | nil => cases hmem
      | cons a l => rfl
    have hs := findValErrV2_some_of_bad items ⟨it, hmem, hbad⟩ 0
    unfold createTransactionV2
    rw [hne]
    cases hfv : findValErrV2 0 items with
    | none => rw [hfv] at hs; cases hs
    | some r =>
      simp only [Bool.false_eq_true, if_false, hfv]
      exact ⟨findValErrV2_valid 0 items r hfv, trivial⟩

/-- Counterexample for C4 as stated: in the first `createTransaction`
variant a **non-integer** quantity (3/2, which is ≥ 1) passes
validation, the database transaction runs, an order is created, and the
store is mutated — there is no rejection before database access. -/
theorem quantityValidation_counterexample :
    jsIsInteger (mkRat 3 2) = false ∧ 1 ≤ mkRat 3 2 ∧
    (createTransaction exDb "u2" [⟨"b1", mkRat 3 2⟩]).1 =
      TxResponse.created { id := 2, user_id := "u2" } ∧
    (createTransaction exDb "u2" [⟨"b1", mkRat 3 2⟩]).2 ≠ exDb := by decide

/-- Witness for C4 (amended): quantity 1/2 is rejected by the first
variant with the store untouched, and the non-integer 3/2 is rejected
by the second variant with the store untouched. -/
theorem quantityValidation_witness :
    (isValidationError (createTransaction exDb "u2" [⟨"b1", mkRat 1 2⟩]).1 = true ∧
      (createTransaction exDb "u2" [⟨"b1", mkRat 1 2⟩]).2 = exDb) ∧
    (isValidationErrorV2 (createTransactionV2 exDbV2 "u2" [⟨"b1", mkRat 3 2⟩]).1 = true ∧
      (createTransactionV2 exDbV2 "u2" [⟨"b1", mkRat 3 2⟩]).2 = exDbV2) :=
  ⟨(quantityValidation exDb exDbV2 "u2" [⟨"b1", mkRat 1 2⟩]).1
      ⟨⟨"b1", mkRat 1 2⟩, by decide, by decide⟩,
   (quantityValidation exDb exDbV2 "u2" [⟨"b1", mkRat 3 2⟩]).2
      ⟨⟨"b1", mkRat 3 2⟩, by decide, by decide⟩⟩

/-- A pre-state failure survives one decrement step (quantities are
positive once validation passed). -/
theorem staticFail_decrement (db : DB) (bid : String) (q : Rat) (hq : 0 ≤ q)
    (it : ReqItem) (h : staticFail db it = true) :
    staticFail { db with books := decrementStock db.books bid q } it = true := by
  unfold staticFail at h ⊢
  rw [findBook_decrement]
  cases hf : findBook db it.book_id with
  | none => rfl
  | some b =>
    rw [hf] at h
    simp only [Option.map]
    by_cases hid : b.id == bid
    · rw [if_pos hid]
      simp only [decide_eq_true_eq] at h ⊢
      calc qSub b.stock_quantity q = b.stock_quantity - q := qSub_eq _ _
        _ ≤ b.stock_quantity := sub_le_self _ hq
        _ < it.quantity := h
    · rw [if_neg hid]; exact h

theorem runItems_err (items : List ReqItem) :
    ∀ (db : DB) (acc : List (String × Rat)),
    (∀ it ∈ items, ¬ it.quantity < 1) →
    items.any (staticFail db) = true →
    ∃ e, runItems db items acc = .error e := by
  induction items with
  | nil => intro db acc _ hany; cases hany
  | cons hd rest ih =>
    intro db acc hpos hany
    by_cases hsf : staticFail db hd = true
    · unfold staticFail at hsf
      cases hf : findBook db hd.book_id with
      | none => exact ⟨.bookNotFound hd.book_id, by simp [runItems, hf]⟩
      | some b =>
        rw [hf] at hsf
        simp only [decide_eq_true_eq] at hsf
        exact ⟨.insufficientStock b.title b.stock_quantity hd.quantity,
          by simp [runItems, hf, hsf]⟩
    · have hrest : rest.any (staticFail db) = true := by
        rcases List.any_eq_true.mp hany with ⟨it, hmem, hit⟩
        rcases List.mem_cons.mp hmem with h1 | h2
        · exact absurd (h1 ▸ hit) hsf
        · exact List.any_eq_true.mpr ⟨it, h2, hit⟩
      unfold staticFail at hsf
      cases hf : findBook db hd.book_id with
      | none => exact ⟨.bookNotFound hd.book_id, by simp [runItems, hf]⟩
      | some b =>
        rw [hf] at hsf
        simp only [decide_eq_true_eq] at hsf
        have hnlt : ¬ b.stock_quantity < hd.quantity := fun hc => hsf (by simp [hc])
        have hq0 : (0 : Rat) ≤ hd.quantity :=
          le_trans (by norm_num) (not_lt.mp (hpos hd (by simp)))
        have hrest2 : rest.any (staticFail
            { db with books := decrementStock db.books hd.book_id hd.quantity }) = true := by
          rcases List.any_eq_true.mp hrest with ⟨it, hmem, hit⟩
          exact List.any_eq_true.mpr
            ⟨it, hmem, staticFail_decrement db hd.book_id hd.quantity hq0 it hit⟩
        rcases ih _ (acc ++ [(hd.book_id, hd.quantity)])
            (fun x hx => hpos x (by simp [hx])) hrest2 with ⟨e, he⟩
        exact ⟨e, by simp [runItems, hf, hnlt, he]⟩

/-- **C2.** If any item of the request fails on the pre-state — its
book is absent among non-deleted rows, or its requested quantity
exceeds the available stock — then `createTransaction` leaves the whole
store unchanged and creates no order: every write performed for
earlier items of the same request is rolled back. -/
theorem createTransaction_allOrNothing (db : DB) (u : String) (items : List ReqItem)
    (hfail : items.any (staticFail db) = true) :
    (createTransaction db u items).2 = db ∧
    isCreated (createTransaction db u items).1 = false := by
  have hne : items.isEmpty = false := by
    cases items with
    | nil => cases hfail
    | cons a l => rfl
  unfold createTransaction
  rw [hne]
  simp only [Bool.false_eq_true, if_false]
  cases hfv : findValErr 0 items with
  | some r =>
    refine ⟨rfl, ?_⟩
    have := findValErr_valid 0 items r hfv
    cases r <;> first | rfl | cases this
  | none =>
    have hpos := findValErr_ge_one items 0 hfv
    rcases runItems_err items db [] hpos hfail with ⟨e, he⟩
    rw [he]
    cases e <;> exact ⟨rfl, rfl⟩

/-- Witness for C2: a two-item order whose second item exceeds stock
(6×Cosmos against stock 2) rolls back the first item's decrement:
the store is unchanged and no order is created. -/
theorem createTransaction_allOrNothing_witness :
    (createTransaction exDb "u2" [⟨"b1", 2⟩, ⟨"b2", 6⟩]).2 = exDb ∧
    isCreated (createTransaction exDb "u2" [⟨"b1", 2⟩, ⟨"b2", 6⟩]).1 = false :=
  createTransaction_allOrNothing exDb "u2" [⟨"b1", 2⟩, ⟨"b2", 6⟩] (by decide)

theorem runItems_ok : ∀ (items : List ReqItem) (db : DB) (acc : List (String × Rat)),
    (items.map (fun it => it.book_id)).Nodup →
    (∀ it ∈ items, (findBook db it.book_id).isSome ∧
       it.quantity ≤ ((findBook db it.book_id).getD defaultBook).stock_quantity) →
    runItems db items acc =
      .ok ({ db with books := applyDec db.books items },
           acc ++ items.map (fun it => (it.book_id, it.quantity))) := by
  intro items
  induction items with
  | nil => intro db acc _ _; simp [runItems, applyDec]
  | cons hd rest ih =>
    intro db acc hnodup hfound
    have hhd := hfound hd (by simp)
    cases hf : findBook db hd.book_id with
    | none => rw [hf] at hhd; cases hhd.1
    | some b =>
      rw [hf] at hhd
      have hle : hd.quantity ≤ b.stock_quantity := by simpa using hhd.2
      have hnlt : ¬ b.stock_quantity < hd.quantity := not_lt.mpr hle
      have hnodup2 : (hd.book_id :: rest.map (fun x => x.book_id)).Nodup := by
        rw [List.map_cons] at hnodup; exact hnodup
      have hnotin : hd.book_id ∉ rest.map (fun x => x.book_id) :=
        (List.nodup_cons.mp hnodup2).1
      have hrest : ∀ it ∈ rest,
          (findBook { db with books := decrementStock db.books hd.book_id hd.quantity }
             it.book_id).isSome ∧
          it.quantity ≤ ((findBook { db with books := decrementStock db.books hd.book_id hd.quantity }
             it.book_id).getD defaultBook).stock_quantity := by
        intro it hmem
        have hne : it.book_id ≠ hd.book_id := by
          intro hc
          exact hnotin (hc ▸ List.mem_map_of_mem (fun x => x.book_id) hmem)
        rw [findBook_decrement_ne db hd.book_id hd.quantity it.book_id hne]
        exact hfound it (by simp [hmem])
      have hnr : (rest.map (fun x => x.book_id)).Nodup :=
        (List.nodup_cons.mp hnodup2).2
      simp only [runItems, hf]
      rw [if_neg hnlt]
      rw [ih _ (acc ++ [(hd.book_id, hd.quantity)]) hnr hrest]
      simp [applyDec]

theorem netDecrement_step (it : ReqItem) (rest : List ReqItem) (b : Book)
    (hnotin : it.book_id ∉ rest.map (fun x => x.book_id)) :
    netDecrement rest
      (if b.id == it.book_id
       then { b with stock_quantity := qSub b.stock_quantity it.quantity } else b) =
    netDecrement (it :: rest) b := by
  by_cases hb : b.id == it.book_id
  · rw [if_pos hb]
    have hbid : b.id = it.book_id := eq_of_beq hb
    have hleft : rest.find? (fun x => x.book_id == b.id) = none := by
      rw [List.find?_eq_none]
      intro x hx hp
      exact hnotin (hbid ▸ eq_of_beq hp ▸ List.mem_map_of_mem (fun y => y.book_id) hx)
    have hright : (it :: rest).find? (fun x => x.book_id == b.id) = some it :=
      List.find?_cons_of_pos _ (by simp [hbid])
    unfold netDecrement
    rw [hright]
    simp only [hleft]
  · rw [if_neg hb]
    have hne2 : it.book_id ≠ b.id := fun hc => hb (by simp [hc])
    have hfalse : (it.book_id == b.id) = false := beq_eq_false_iff_ne.mpr hne2
    unfold netDecrement
    simp only [List.find?, hfalse]

theorem applyDec_eq_map : ∀ (items : List ReqItem) (books : List Book),
    (items.map (fun it => it.book_id)).Nodup →
    applyDec books items = books.map (netDecrement items) := by
  intro items
  induction items with
  | nil =>
    intro books _
    have : netDecrement [] = fun (b : Book) => b := funext fun b => rfl
    simp [applyDec, this]
  | cons hd rest ih =>
    intro books hnodup
    have hnodup2 : (hd.book_id :: rest.map (fun x => x.book_id)).Nodup := by
      rw [List.map_cons] at hnodup; exact hnodup
    have hsplit := List.nodup_cons.mp hnodup2
    have step : applyDec books (hd :: rest) =
        applyDec (decrementStock books hd.book_id hd.quantity) rest := rfl
    rw [step, ih _ hsplit.2, decrementStock, List.map_map]
    exact List.map_congr_left fun b _ => netDecrement_step hd rest b hsplit.1

/-- **C1 (amended).** For an order request whose items reference
**pairwise-distinct**, existing, non-deleted books, each with quantity
at most the book's current stock (and passing request validation),
`createTransaction` decrements each referenced book's stock by exactly
the requested quantity (other books untouched), and creates exactly one
order owning exactly one order item per input item, with that item's
`book_id` and `quantity`. -/
theorem createTransaction_success (db : DB) (u : String) (items : List ReqItem)
    (hne : items ≠ [])
    (hval : ∀ it ∈ items, isBlank it.book_id = false ∧ 1 ≤ it.quantity)
    (hnodup : (items.map (fun it => it.book_id)).Nodup)
    (hfound : ∀ it ∈ items, (findBook db it.book_id).isSome ∧
       it.quantity ≤ ((findBook db it.book_id).getD defaultBook).stock_quantity) :
    createTransaction db u items =
      (.created { id := db.nextOrderId, user_id := u },
       { genres := db.genres,
         books := db.books.map (netDecrement items),
         orders := db.orders ++ [{ id := db.nextOrderId, user_id := u }],
         order_items := db.order_items ++ items.map (fun it =>
           { order_id := db.nextOrderId, book_id := it.book_id, quantity := it.quantity }),
         nextOrderId := db.nextOrderId + 1 }) := by
  have hemp : items.isEmpty = false := by
    cases items with
    | nil => exact absurd rfl hne
    | cons a l => rfl
  unfold createTransaction
  rw [hemp]
  simp only [Bool.false_eq_true, if_false]
  rw [findValErr_none items hval 0]
  rw [runItems_ok items db [] hnodup hfound]
  simp only [createOrderRow, List.nil_append, List.map_map]
  rw [applyDec_eq_map items db.books hnodup]
  rfl

/-- Counterexample for C1 as stated: with duplicate `book_id`s each
item individually satisfies "quantity ≤ that book's current stock"
(3 ≤ 5 twice), yet the transaction aborts with insufficient stock after
the first decrement, so no order is created and no stock changes. -/
theorem createTransaction_success_counterexample :
    (∀ it ∈ [(⟨"b1", 3⟩ : ReqItem), ⟨"b1", 3⟩],
       isBlank it.book_id = false ∧ 1 ≤ it.quantity ∧
       (findBook exDb it.book_id).isSome ∧
       it.quantity ≤ ((findBook exDb it.book_id).getD defaultBook).stock_quantity) ∧
    createTransaction exDb "u2" [⟨"b1", 3⟩, ⟨"b1", 3⟩] =
      (.insufficientStock "Dune" 2 3, exDb) := by decide

/-- Witness for C1 (amended): ordering 3×Dune and 2×Cosmos succeeds,
decrements the two stocks (5→2 and 2→0), and creates order 2 with the
two order items. -/
theorem createTransaction_success_witness :
    createTransaction exDb "u2" [⟨"b1", 3⟩, ⟨"b2", 2⟩] =
      (.created { id := 2, user_id := "u2" },
       { genres := exDb.genres,
         books := [{ bDune with stock_quantity := 2 },
                   { bCosmos with stock_quantity := 0 }, bGone],
         orders := exDb.orders ++ [{ id := 2, user_id := "u2" }],
         order_items := exDb.order_items ++
           [{ order_id := 2, book_id := "b1", quantity := 3 },
            { order_id := 2, book_id := "b2", quantity := 2 }],
         nextOrderId := 3 }) := by
  have h := createTransaction_success exDb "u2" [⟨"b1", 3⟩, ⟨"b2", 2⟩]
    (by decide) (by decide) (by decide) (by decide)
  exact h.trans (by decide)

theorem runItems_append : ∀ (l1 l2 : List ReqItem) (db : DB) (acc : List (String × Rat)),
    runItems db (l1 ++ l2) acc =
      match runItems db l1 acc with
      | .error e => .error e
      | .ok res => runItems res.1 l2 res.2 := by
  intro l1
  induction l1 with
  | nil => intro l2 db acc; rfl
  | cons hd t ih =>
    intro l2 db acc
    simp only [List.cons_append, runItems]
    cases findBook db hd.book_id with
    | none => rfl
    | some b =>
      by_cases hlt : b.stock_quantity < hd.quantity
      · simp only [if_pos hlt]
      · simp only [if_neg hlt]
        exact ih l2 _ _

theorem findBook_applyDec_none : ∀ (l : List ReqItem) (db : DB) (bid : String),
    findBook db bid = none →
    findBook { db with books := applyDec db.books l } bid = none := by
  intro l
  induction l with
  | nil => intro db bid h; exact h
  | cons hd t ih =>
    intro db bid h
    have h1 : findBook { db with books := decrementStock db.books hd.book_id hd.quantity } bid = none := by
      rw [findBook_decrement, h]; rfl
    exact ih { db with books := decrementStock db.books hd.book_id hd.quantity } bid h1

/-- **C5.** During order placement each item's book is looked up among
non-deleted rows only: if no row with the item's id is live (every row
with that id has `deleted_at` set, or none exists), the whole
transaction aborts with the book-not-found error carrying that
`book_id`, and no partial stock change persists — even when earlier
items of the same request had already been decremented. -/
theorem createTransaction_notFound (db : DB) (u : String)
    (pre post : List ReqItem) (it : ReqItem)
    (hval : ∀ x ∈ pre ++ it :: post, isBlank x.book_id = false ∧ 1 ≤ x.quantity)
    (hprenodup : (pre.map (fun x => x.book_id)).Nodup)
    (hprefound : ∀ x ∈ pre, (findBook db x.book_id).isSome ∧
       x.quantity ≤ ((findBook db x.book_id).getD defaultBook).stock_quantity)
    (habsent : ∀ b ∈ db.books, b.id = it.book_id → b.deleted_at ≠ none) :
    createTransaction db u (pre ++ it :: post) = (.notFound it.book_id, db) := by
  have hemp : (pre ++ it :: post).isEmpty = false := by cases pre <;> rfl
  have hnone : findBook db it.book_id = none := by
    rw [findBook, List.find?_eq_none]
    intro b hb hp
    have hp2 := (Bool.and_eq_true _ _).mp hp
    exact habsent b hb (eq_of_beq hp2.1) (by simpa using eq_of_beq hp2.2)
  unfold createTransaction
  rw [hemp]
  simp only [Bool.false_eq_true, if_false]
  rw [findValErr_none _ hval 0]
  rw [runItems_append pre (it :: post) db []]
  rw [runItems_ok pre db [] hprenodup hprefound]
  simp only [runItems]
  rw [findBook_applyDec_none pre db it.book_id hnone]

/-- Witness for C5: `b3` exists but is soft-deleted; ordering
[2×`b1`, 1×`b3`] aborts with not-found for `b3` and rolls back the
`b1` decrement. -/
theorem createTransaction_notFound_witness :
    createTransaction exDb "u2" ([⟨"b1", 2⟩] ++ ⟨"b3", 1⟩ :: []) = (.notFound "b3", exDb) :=
  createTransaction_notFound exDb "u2" [⟨"b1", 2⟩] [] ⟨"b3", 1⟩
    (by decide) (by decide) (by decide) (by decide)

theorem qDivNat_eq (a : Rat) (n : Nat) (h : n ≠ 0) : qDivNat a n = a / (n : Rat) := by
  have hden : ((a.den : Rat)) ≠ 0 := Nat.cast_ne_zero.mpr a.den_nz
  have hn : ((n : Rat)) ≠ 0 := Nat.cast_ne_zero.mpr h
  rw [qDivNat, Rat.mkRat_eq_divInt, Rat.divInt_eq_div]
  push_cast
  rw [← div_div, Rat.num_div_den]

/-- **C6.** The statistics response's `averageTransactionAmount` is
`Math.round(totalRevenue / totalTransactions)` whenever there is at
least one transaction, and exactly `0` when `totalTransactions = 0`:
the ternary guard prevents the division in the zero case. -/
theorem averageTransactionAmount_guarded (db : DB) :
    (getTransactionStatistics db).averageTransactionAmount =
      if (getTransactionStatistics db).totalTransactions = 0 then 0
      else ⌊(getTransactionStatistics db).totalRevenue /
             ((getTransactionStatistics db).totalTransactions : Rat) + (1 : Rat)/2⌋ := by
  by_cases h : db.orders.length = 0
  · simp [getTransactionStatistics, h]
  · have hpos : 0 < db.orders.length := Nat.pos_of_ne_zero h
    simp only [getTransactionStatistics, if_pos hpos, if_neg h]
    rw [jsRound_eq, qDivNat_eq _ _ h]

theorem statsFold_fst (db : DB) : ∀ (l : List OrderItem) (r : Rat) (s : List (String × GenreStat)),
    (l.foldl (statsStep db) (r, s)).1 =
      r + (l.map (fun it => it.quantity * (bookOf db it.book_id).price)).sum := by
  intro l
  induction l with
  | nil => intro r s; simp
  | cons it rest ih =>
    intro r s
    rw [List.foldl_cons]
    simp only [statsStep]
    rw [ih]
    rw [qAdd_eq, qMul_eq]
    simp only [List.map_cons, List.sum_cons]
    ring

theorem totalRevenue_eq_spec (db : DB) :
    (getTransactionStatistics db).totalRevenue = specRevenue db := by
  simp only [getTransactionStatistics, statsFold]
  rw [statsFold_fst db db.order_items 0 []]
  rw [specRevenue, qSum_eq]
  rw [zero_add]
  congr 1
  exact List.map_congr_left fun it _ => by rw [qMul_eq]

theorem bookOf_bump (db : DB) (bid target : String) (d : Rat)
    (h : (db.books.find? (fun b => b.id == target)).isSome) :
    bookOf (bumpPrice db bid d) target =
      (if (bookOf db target).id == bid
       then { bookOf db target with price := qAdd (bookOf db target).price d }
       else bookOf db target) := by
  have hmap : (bumpPrice db bid d).books.find? (fun b => b.id == target) =
      (db.books.find? (fun b => b.id == target)).map
        (fun b => if b.id == bid then { b with price := qAdd b.price d } else b) := by
    simp only [bumpPrice]
    exact find_map _ _ (fun b => by by_cases hb : b.id == bid <;> simp [hb]) db.books
  cases hf : db.books.find? (fun b => b.id == target) with
  | none => rw [hf] at h; cases h
  | some b =>
    unfold bookOf
    rw [hmap, hf]
    simp only [Option.map, Option.getD]

theorem revenue_bump (db : DB) (bid : String) (d : Rat) :
    ∀ (l : List OrderItem),
    (∀ it ∈ l, (db.books.find? (fun b => b.id == it.book_id)).isSome) →
    (l.map (fun it => it.quantity * (bookOf (bumpPrice db bid d) it.book_id).price)).sum =
      (l.map (fun it => it.quantity * (bookOf db it.book_id).price)).sum
        + d * ((l.filter (fun it => it.book_id == bid)).map (fun it => it.quantity)).sum := by
  intro l
  induction l with
  | nil => intro _; simp
  | cons it rest ih =>
    intro hall
    have hit := hall it (by simp)
    have hrest : ∀ x ∈ rest, (db.books.find? (fun b => b.id == x.book_id)).isSome :=
      fun x hx => hall x (List.mem_cons_of_mem it hx)
    simp only [List.map_cons, List.sum_cons, List.filter_cons]
    rw [bookOf_bump db bid it.book_id d hit]
    cases hf : db.books.find? (fun b => b.id == it.book_id) with
    | none => rw [hf] at hit; cases hit
    | some b =>
      have hpb := List.find?_some hf
      have hb : b.id = it.book_id := eq_of_beq hpb
      have hbook : bookOf db it.book_id = b := by unfold bookOf; rw [hf]; rfl
      rw [hbook]
      by_cases hc : (it.book_id == bid) = true
      · have hcid : (b.id == bid) = true := by rw [hb]; exact hc
        rw [hcid, if_pos rfl, hc, if_pos rfl]
        rw [ih hrest, qAdd_eq]
        simp only [List.map_cons, List.sum_cons]
        ring
      · have hc2 : (it.book_id == bid) = false := by
          cases hcc : (it.book_id == bid) with
          | true => exact absurd hcc hc
          | false => rfl
        have hcid : (b.id == bid) = false := by rw [hb]; exact hc2
        rw [hcid, hc2]
        simp only [Bool.false_eq_true, if_false]
        rw [ih hrest]
        ring

/-- **C3.** The statistics `totalRevenue` is recomputed from each
order item's quantity times the referenced book's **current** price
(no snapshot is stored): it equals Σ quantity × current price over all
order items, and raising one book's price by `d` afterwards shifts the
reported revenue of the same past orders by `d` times the total
quantity of that book ever sold — so past statistics drift with price
changes. -/
theorem totalRevenue_current_price (db : DB) (bid : String) (d : Rat)
    (hwf : wfItems db = true) :
    (getTransactionStatistics db).totalRevenue = specRevenue db ∧
    (getTransactionStatistics (bumpPrice db bid d)).totalRevenue =
      (getTransactionStatistics db).totalRevenue + d * soldQty db bid := by
  have hall : ∀ it ∈ db.order_items, (db.books.find? (fun b => b.id == it.book_id)).isSome := by
    intro it hmem
    have := List.all_eq_true.mp hwf it hmem
    rcases List.any_eq_true.mp this with ⟨b, hb, hp⟩
    exact List.find?_isSome.mpr ⟨b, hb, hp⟩
  constructor
  · exact totalRevenue_eq_spec db
  · have h1 : (getTransactionStatistics (bumpPrice db bid d)).totalRevenue =
        (db.order_items.map
          (fun it => it.quantity * (bookOf (bumpPrice db bid d) it.book_id).price)).sum := by
      simp only [getTransactionStatistics, statsFold]
      rw [statsFold_fst (bumpPrice db bid d) (bumpPrice db bid d).order_items 0 [], zero_add]
      rfl
    have h2 : (getTransactionStatistics db).totalRevenue =
        (db.order_items.map (fun it => it.quantity * (bookOf db it.book_id).price)).sum := by
      simp only [getTransactionStatistics, statsFold]
      rw [statsFold_fst db db.order_items 0 [], zero_add]
    rw [h1, h2, revenue_bump db bid d db.order_items hall]
    rw [soldQty, qSum_eq]

/-- Witness for C3 on the fixture store (2×Dune@10 + 1×Cosmos@20 = 40;
after raising Dune's price by 2, revenue shifts by 2×2). -/
theorem totalRevenue_current_price_witness :
    wfItems exDb = true ∧
    ((getTransactionStatistics exDb).totalRevenue = specRevenue exDb ∧
     (getTransactionStatistics (bumpPrice exDb "b1" 2)).totalRevenue =
       (getTransactionStatistics exDb).totalRevenue + 2 * soldQty exDb "b1") :=
  ⟨by decide, totalRevenue_current_price exDb "b1" 2 (by decide)⟩

theorem jsCeilDiv_eq (t l : Nat) (hl : 1 ≤ l) :
    jsCeilDiv t l = (((t + l - 1) / l : Nat) : Int) := by
  have hm := Nat.div_add_mod (t + l - 1) l
  have hs := Nat.mod_lt (t + l - 1) (show 0 < l from hl)
  have hA : t ≤ l * ((t + l - 1) / l) := by
    generalize hX : l * ((t + l - 1) / l) = X at hm
    omega
  have hC : l * ((t + l - 1) / l) + 1 ≤ t + l := by
    generalize hX : l * ((t + l - 1) / l) = X at hm
    omega
  have hcast : (mkRat (t : Int) l) = ((t : Nat) : Rat) / ((l : Nat) : Rat) := by
    rw [Rat.mkRat_eq_divInt, Rat.divInt_eq_div]
    norm_num
  have hlq : (0 : Rat) < ((l : Nat) : Rat) := by exact_mod_cast hl
  rw [jsCeilDiv, ratCeil_eq, hcast, Int.ceil_eq_iff]
  have hAq : ((t : Nat) : Rat) ≤ ((l : Nat) : Rat) * (((t + l - 1) / l : Nat) : Rat) := by
    exact_mod_cast hA
  have hCq : ((l : Nat) : Rat) * (((t + l - 1) / l : Nat) : Rat) + 1 ≤
      ((t : Nat) : Rat) + ((l : Nat) : Rat) := by
    exact_mod_cast hC
  constructor
  · rw [lt_div_iff hlq]
    have key : ((((t + l - 1) / l : Nat) : Rat) - 1) * ((l : Nat) : Rat) < ((t : Nat) : Rat) := by
      nlinarith [hCq]
    exact_mod_cast key
  · rw [div_le_iff hlq]
    have key : ((t : Nat) : Rat) ≤ (((t + l - 1) / l : Nat) : Rat) * ((l : Nat) : Rat) := by
      nlinarith [hAq]
    exact_mod_cast key

theorem slice_beyond {α : Type} (L : List α) (page limit n : Nat) (hl : 1 ≤ limit)
    (hlen : L.length = n)
    (h : (((n + limit - 1) / limit : Nat) : Int) < (page : Int)) :
    (L.drop ((page - 1) * limit)).take limit = [] := by
  have hm := Nat.div_add_mod (n + limit - 1) limit
  have hs := Nat.mod_lt (n + limit - 1) (show 0 < limit from hl)
  have hpage : (n + limit - 1) / limit < page := by exact_mod_cast h
  have hA : n ≤ limit * ((n + limit - 1) / limit) := by
    generalize hX : limit * ((n + limit - 1) / limit) = X at hm
    omega
  have hm1 : (n + limit - 1) / limit ≤ page - 1 := by omega
  have hB : limit * ((n + limit - 1) / limit) ≤ limit * (page - 1) :=
    Nat.mul_le_mul_left _ hm1
  have hskip : n ≤ (page - 1) * limit := by
    calc n ≤ limit * ((n + limit - 1) / limit) := hA
      _ ≤ limit * (page - 1) := hB
      _ = (page - 1) * limit := Nat.mul_comm _ _
  have hdrop : L.drop ((page - 1) * limit) = [] :=
    List.drop_eq_nil_of_le (by rw [hlen]; exact hskip)
  rw [hdrop, List.take_nil]

/-- **C8.** For any listing request (books or transactions) with
`page ≥ 1` and `limit ≥ 1`, the returned `total_pages` equals
`⌈total / limit⌉` (as the integer `(total + limit - 1) / limit`), and a
`page` strictly beyond `total_pages` yields an empty item list while
`total` still reports the full count of matching rows.  The store's
ORDER BY is any row reordering (`bsorter` / `osorter`). -/
theorem pagination_correct (db : DB) (search : Option String)
    (bsorter : List Book → List Book) (osorter : List Order → List Order)
    (page limit : Nat) (hp : 1 ≤ page) (hl : 1 ≤ limit)
    (hbs : ∀ l, (bsorter l).length = l.length)
    (hos : ∀ l, (osorter l).length = l.length) :
    ((getBooks db search bsorter page limit).2.total_pages =
       ((((getBooks db search bsorter page limit).2.total + limit - 1) / limit : Nat) : Int)) ∧
    ((getBooks db search bsorter page limit).2.total_pages < (page : Int) →
       (getBooks db search bsorter page limit).1 = [] ∧
       (getBooks db search bsorter page limit).2.total =
         (db.books.filter (booksWhere search)).length) ∧
    ((getAllTransactions db osorter page limit).2.total_pages =
       ((((getAllTransactions db osorter page limit).2.total + limit - 1) / limit : Nat) : Int)) ∧
    ((getAllTransactions db osorter page limit).2.total_pages < (page : Int) →
       (getAllTransactions db osorter page limit).1 = [] ∧
       (getAllTransactions db osorter page limit).2.total = db.orders.length) := by
  refine ⟨?_, ?_, ?_, ?_⟩
  · simp only [getBooks]
    exact jsCeilDiv_eq _ limit hl
  · intro h
    simp only [getBooks] at h ⊢
    rw [jsCeilDiv_eq _ limit hl] at h
    refine ⟨?_, trivial⟩
    exact slice_beyond (bsorter (db.books.filter (booksWhere search))) page limit
      (db.books.filter (booksWhere search)).length hl (hbs _) h
  · simp only [getAllTransactions]
    exact jsCeilDiv_eq _ limit hl
  · intro h
    simp only [getAllTransactions] at h ⊢
    rw [jsCeilDiv_eq _ limit hl] at h
    refine ⟨?_, trivial⟩
    exact slice_beyond (osorter db.orders) page limit db.orders.length hl (hos _) h

/-- Witness for C8: two matching books, `limit = 2` so
`total_pages = 1`; requesting page 3 yields an empty list with
`total = 2`, and similarly one order page for the single order. -/
theorem pagination_correct_witness :
    ((getBooks exDb none id 3 2).2.total_pages =
       ((((getBooks exDb none id 3 2).2.total + 2 - 1) / 2 : Nat) : Int)) ∧
    ((getBooks exDb none id 3 2).2.total_pages < (3 : Int) →
       (getBooks exDb none id 3 2).1 = [] ∧
       (getBooks exDb none id 3 2).2.total =
         (exDb.books.filter (booksWhere none)).length) ∧
    ((getAllTransactions exDb id 3 2).2.total_pages =
       ((((getAllTransactions exDb id 3 2).2.total + 2 - 1) / 2 : Nat) : Int)) ∧
    ((getAllTransactions exDb id 3 2).2.total_pages < (3 : Int) →
       (getAllTransactions exDb id 3 2).1 = [] ∧
       (getAllTransactions exDb id 3 2).2.total = exDb.orders.length) :=
  pagination_correct exDb none id id 3 2 (by decide) (by decide)
    (fun l => rfl) (fun l => rfl)

theorem allCongr {α : Type} (p q : α → Bool) :
    ∀ l : List α, (∀ a ∈ l, p a = q a) → l.all p = l.all q
  | [], _ => rfl
  | a :: l, h => by
    simp only [List.all_cons]
    rw [h a (by simp), allCongr p q l (fun x hx => h x (by simp [hx]))]

theorem pickBy_firstBest (key : GenreStat → Rat) :
    ∀ (rest : List GenreStat) (acc : GenreStat),
    (acc :: rest).find? (isBest key (acc :: rest)) = some (pickBy key rest acc) := by
  intro rest
  induction rest with
  | nil =>
    intro acc
    have hp : isBest key [acc] acc = true := by simp [isBest]
    rw [List.find?_cons_of_pos _ hp]
    rfl
  | cons b t ih =>
    intro acc
    show (acc :: b :: t).find? (isBest key (acc :: b :: t)) =
      some (pickBy key t (if key acc < key b then b else acc))
    by_cases h : key acc < key b
    · rw [if_pos h]
      have hba : ¬ key b ≤ key acc := not_le.mpr h
      have hPacc : isBest key (acc :: b :: t) acc = false := by
        simp [isBest, hba]
      rw [List.find?_cons_of_neg _ (by simp [hPacc])]
      have hcongr : (b :: t).find? (isBest key (acc :: b :: t)) =
          (b :: t).find? (isBest key (b :: t)) := by
        apply findCongr
        intro g hg
        unfold isBest
        rw [List.all_cons]
        cases hbt : (b :: t).all (fun g2 => key g2 ≤ key g) with
        | false => simp [hbt]
        | true =>
          have hb2 : key b ≤ key g := by
            simpa using List.all_eq_true.mp hbt b (by simp)
          have hacc : key acc ≤ key g := le_trans (le_of_lt h) hb2
          simp [hbt, hacc]
      rw [hcongr, ih b]
    · rw [if_neg h]
      have hba : key b ≤ key acc := not_lt.mp h
      have hPeq : isBest key (acc :: b :: t) acc = isBest key (acc :: t) acc := by
        unfold isBest
        simp [List.all_cons, hba]
      cases hPa : isBest key (acc :: t) acc with
      | true =>
        have hPacc : isBest key (acc :: b :: t) acc = true := by rw [hPeq, hPa]
        rw [List.find?_cons_of_pos _ hPacc]
        have hih := ih acc
        rw [List.find?_cons_of_pos _ hPa] at hih
        exact hih
      | false =>
        have hPacc : isBest key (acc :: b :: t) acc = false := by rw [hPeq, hPa]
        rw [List.find?_cons_of_neg _ (by simp [hPacc])]
        have hPb : isBest key (acc :: b :: t) b = false := by
          cases hh : isBest key (acc :: b :: t) b with
          | false => rfl
          | true =>
            exfalso
            have hall := List.all_eq_true.mp hh
            have hPa2 : isBest key (acc :: t) acc = true := by
              unfold isBest
              rw [List.all_eq_true]
              intro g2 hg2
              rcases List.mem_cons.mp hg2 with e | e
              · subst e; simp
              · have hgb : key g2 ≤ key b := by simpa using hall g2 (by simp [e])
                simpa using le_trans hgb hba
            simp [hPa] at hPa2
        rw [List.find?_cons_of_neg _ (by simp [hPb])]
        have hih := ih acc
        rw [List.find?_cons_of_neg _ (by simp [hPa])] at hih
        rw [← hih]
        apply findCongr
        intro g hg
        unfold isBest
        simp only [List.all_cons]
        cases hag : decide (key acc ≤ key g) with
        | false => simp [hag]
        | true =>
          have hacc : key acc ≤ key g := of_decide_eq_true hag
          have hb2 : key b ≤ key g := le_trans hba hacc
          simp [hag, hb2]

theorem firstMinEntry_eq_isBest (l : List GenreStat) :
    firstMinEntry l = l.find? (isBest (fun s => -s.totalSold) l) := by
  apply findCongr
  intro g _
  unfold isBest
  apply allCongr
  intro g2 _
  rw [decide_eq_decide]
  exact Iff.symm neg_le_neg_iff

/-- **C7.** In the statistics response `genreWithMostSales` /
`genreWithLeastSales` are the first rollup entries attaining the
maximum / minimum `totalSold` (the strict-comparison `reduce` keeps the
earlier entry on ties, so first-encountered genre wins), and when the
rollup array is empty both are the `"No data"` sentinel with zero
totals. -/
theorem genreExtremes (db : DB) :
    (genreArrayOf db = [] →
      (getTransactionStatistics db).genreWithMostSales = noDataGenre ∧
      (getTransactionStatistics db).genreWithLeastSales = noDataGenre) ∧
    (genreArrayOf db ≠ [] →
      firstMaxEntry (genreArrayOf db) =
        some (getTransactionStatistics db).genreWithMostSales ∧
      firstMinEntry (genreArrayOf db) =
        some (getTransactionStatistics db).genreWithLeastSales) := by
  have hmost : (getTransactionStatistics db).genreWithMostSales =
      genreWithMost (genreArrayOf db) := rfl
  have hleast : (getTransactionStatistics db).genreWithLeastSales =
      genreWithLeast (genreArrayOf db) := rfl
  constructor
  · intro h
    rw [hmost, hleast, h]
    exact ⟨rfl, rfl⟩
  · intro h
    cases harr : genreArrayOf db with
    | nil => exact absurd harr h
    | cons g rest =>
      rw [hmost, hleast, harr]
      constructor
      · show (g :: rest).find? (isBest (fun s => s.totalSold) (g :: rest)) =
          some (genreWithMost (g :: rest))
        rw [pickBy_firstBest]
        rfl
      · rw [firstMinEntry_eq_isBest, pickBy_firstBest]
        rfl

/-- Witness for C7 on the fixture store: the rollup array is
`[Fiction (sold 2), Science (sold 1)]`, so the first maximal entry is
`genreWithMostSales` and the first minimal entry is
`genreWithLeastSales`. -/
theorem genreExtremes_witness :
    firstMaxEntry (genreArrayOf exDb) =
      some (getTransactionStatistics exDb).genreWithMostSales ∧
    firstMinEntry (genreArrayOf exDb) =
      some (getTransactionStatistics exDb).genreWithLeastSales :=
  (genreExtremes exDb).2 (by decide)
